import Mathlib

/-!
Verification development for the IPD agent simulation in
src/src/components/Home.tsx (class SimulationScene).

The simulation core is shallowly embedded over the rationals.  Conventions:

* JS numbers are modelled as rationals.
* Math.random draws are an explicit stream: a function from the draw index
  to a rational together with a cursor (structure Rng).  Every source call
  of Math.random consumes exactly one draw, in source order.
* Math.sqrt is irrational, so functions that need it take a square-root
  function as an explicit parameter; comparisons of the form
  Phaser.Math.Distance.Between(...) < r are embedded in squared form,
  which is equivalent because the distance is the nonnegative square root
  of the sum of squares: dist < r holds iff 0 < r and distSq < r ^ 2.
* Phaser game objects are reduced to their data: a creature is the
  CreatureData record of the source plus the container position x, y; a
  food item is its position, its stored data value and its active flag.
-/

namespace IPD

/-- An action in one round of the Prisoners Dilemma: C or D,
matching the literal type ('C' | 'D') of the source. -/
inductive Action
  | C
  | D
deriving DecidableEq, Repr

/-- The inline flip `action === 'C' ? 'D' : 'C'` used for noise,
memory noise and the win-stay-lose-shift shift. -/
def flipCD : Action → Action
  | Action.C => Action.D
  | Action.D => Action.C

/-- The seven strategy tags of `type Strategy` in the source. -/
inductive Strategy
  | alwaysCooperate
  | alwaysDefect
  | titForTat
  | random
  | winStayLoseShift
  | grimTrigger
  | titForTwoTats
deriving DecidableEq, Repr

/-- Explicit model of Math.random: a stream of draws and a cursor. -/
structure Rng where
  f : ℕ → ℚ
  i : ℕ

/-- One Math.random call: the current draw and the advanced stream. -/
def Rng.next (r : Rng) : ℚ × Rng := (r.f r.i, ⟨r.f, r.i + 1⟩)

/-- The scene parameters of SimulationScene that the embedded core reads
(fields of the class, as set in init from the raw SimulationConfig:
interactionCooldown = 1010 - INTERACTION_SPEED and
payoffScale = 500 / INTERACTION_SPEED). -/
structure SimCfg where
  interactionDistance : ℚ
  interactionCooldown : ℚ
  payoffScale : ℚ
  reproductionThreshold : ℚ
  reproductionCost : ℚ
  minimumResource : ℚ
  maintenanceCost : ℚ
  carryingCapacity : ℚ
  overpopulationFactor : ℚ
  creatureRadius : ℚ
  errorRateInteraction : ℚ
  errorRateMemory : ℚ
  foodValue : ℚ
  speedRandom : ℚ
  speedFood : ℚ
  speedFlee : ℚ
  speedChase : ℚ
deriving DecidableEq

/-- The scene parameters induced by DEFAULT_CONFIG of the source:
cooldown 1010 - 960 = 50, payoffScale 500 / 960 = 25 / 48. -/
def defaultCfg : SimCfg where
  interactionDistance := 200
  interactionCooldown := 50
  payoffScale := 500 / 960
  reproductionThreshold := 200
  reproductionCost := 100
  minimumResource := 0
  maintenanceCost := 5
  carryingCapacity := 0
  overpopulationFactor := 10
  creatureRadius := 20
  errorRateInteraction := 0
  errorRateMemory := 0
  foodValue := 10
  speedRandom := 50
  speedFood := 50
  speedFlee := 50
  speedChase := 50

/-- The CreatureData record of the source (rendering-only fields emoji,
healthBar, label are omitted) together with the container position x, y.
lastVictim stores the id of the referenced creature. -/
structure CreatureData where
  x : ℚ
  y : ℚ
  velocityX : ℚ
  velocityY : ℚ
  id : ℚ
  resources : ℚ
  strategy : Strategy
  memory : List (ℚ × List Action)
  lastInteractionTime : ℚ
  age : ℚ
  score : ℚ
  interactionCount : ℕ
  cooperationCount : ℕ
  defectionCount : ℕ
  lastPartner : Option ℚ
  lastAction : Option Action
  lastPayoff : Option ℚ
  lastHarmer : Option (ℚ × ℚ)
  lastVictim : Option ℚ
deriving DecidableEq

/-- memory.get(k), with the `|| []` convention of getAction: an opponent
that was never seen yields the empty history. -/
def memGet : List (ℚ × List Action) → ℚ → List Action
  | [], _ => []
  | (k', v) :: rest, k => if k' = k then v else memGet rest k

/-- memory.set(k, v) on the association-list model of the Map. -/
def memSet : List (ℚ × List Action) → ℚ → List Action → List (ℚ × List Action)
  | [], k, v => [(k, v)]
  | (k', v') :: rest, k, v =>
      if k' = k then (k, v) :: rest else (k', v') :: memSet rest k v

/-- Squared Euclidean distance between two points. -/
def distSq (x1 y1 x2 y2 : ℚ) : ℚ := (x2 - x1) ^ 2 + (y2 - y1) ^ 2

/-- Phaser.Math.Distance.Between(x1, y1, x2, y2) < r, embedded in squared
form: the distance is the nonnegative square root of distSq, so the strict
comparison holds iff 0 < r and distSq < r ^ 2. -/
def distLt (x1 y1 x2 y2 r : ℚ) : Bool :=
  decide (0 < r ∧ distSq x1 y1 x2 y2 < r ^ 2)

/-- Phaser.Math.Clamp(value, lo, hi) = Math.max(lo, Math.min(hi, value)). -/
def clampQ (v lo hi : ℚ) : ℚ := max lo (min v hi)

/-- Column A of PAYOFF_MATRIX: the payoff of the first player given both
actions (CC 3, CD -2, DC 5, DD -1). -/
def payoffMatrixA : Action → Action → ℚ
  | Action.C, Action.C => 3
  | Action.C, Action.D => -2
  | Action.D, Action.C => 5
  | Action.D, Action.D => -1

/-- Column B of PAYOFF_MATRIX: the payoff of the second player given both
actions (CC 3, CD 5, DC -2, DD -1). -/
def payoffMatrixB : Action → Action → ℚ
  | Action.C, Action.C => 3
  | Action.C, Action.D => 5
  | Action.D, Action.C => -2
  | Action.D, Action.D => -1

/-- Embeds getAction (Home.tsx lines 782-835): the strategy switch on the
opponent history pastMoves and the private WSLS state, followed by the
execution-noise flip with probability errorRateInteraction.  The random
strategy consumes one draw; the final noise check always consumes one. -/
def getAction (cfg : SimCfg) (data : CreatureData) (pastMoves : List Action)
    (rng : Rng) : Action × Rng :=
  let base : Action × Rng :=
    match data.strategy with
    | Strategy.alwaysCooperate => (Action.C, rng)
    | Strategy.alwaysDefect => (Action.D, rng)
    | Strategy.titForTat =>
        (match pastMoves.getLast? with
         | some a => a
         | none => Action.C, rng)
    | Strategy.random =>
        let (r, rng') := rng.next
        (if r < 1 / 2 then Action.C else Action.D, rng')
    | Strategy.winStayLoseShift =>
        let lastAction := data.lastAction.getD Action.C
        let lastPayoff := data.lastPayoff.getD 3
        (if 0 < lastPayoff then lastAction
         else if lastAction = Action.C then Action.D else Action.C, rng)
    | Strategy.grimTrigger =>
        (if pastMoves.contains Action.D then Action.D else Action.C, rng)
    | Strategy.titForTwoTats =>
        (if 2 ≤ pastMoves.length ∧ pastMoves.getLast? = some Action.D ∧
            pastMoves.dropLast.getLast? = some Action.D
         then Action.D else Action.C, rng)
  let (r, rng2) := base.2.next
  (if r < cfg.errorRateInteraction then flipCD base.1 else base.1, rng2)

/-- Embeds updateMemory (lines 837-864): store the observed action (flipped
with probability errorRateMemory) at the end of the per-opponent history;
if the history then holds more than 10 entries, shift off the oldest. -/
def updateMemory (cfg : SimCfg) (data : CreatureData) (opponentId : ℚ)
    (opponentAction : Action) (rng : Rng) : CreatureData × Rng :=
  let history := memGet data.memory opponentId
  let (r, rng') := rng.next
  let savedAction :=
    if r < cfg.errorRateMemory then flipCD opponentAction else opponentAction
  let history1 := history ++ [savedAction]
  let history2 := if 10 < history1.length then history1.tail else history1
  ({ data with memory := memSet data.memory opponentId history2 }, rng')

/-- The cooldown test of handleInteractions (lines 684-688) applied to one
creature: time - lastInteractionTime < interactionCooldown. -/
def cooldownBlocked (cfg : SimCfg) (time : ℚ) (d : CreatureData) : Prop :=
  time - d.lastInteractionTime < cfg.interactionCooldown

instance (cfg : SimCfg) (time : ℚ) (d : CreatureData) :
    Decidable (cooldownBlocked cfg time d) := by
  unfold cooldownBlocked; infer_instance

/-- Embeds handleIPDRound (lines 706-780) for the pair at list positions i
(creature A) and j (creature B): both actions, payoffs scaled by
payoffScale, resource/score/counter updates, harmer and victim tracking,
both memory recordings, the WSLS private-state update, and the
lastInteractionTime / lastPartner stamps. -/
def handleIPDRound (cfg : SimCfg) (time : ℚ) (i j : ℕ)
    (cs : List CreatureData) (rng : Rng) : List CreatureData × Rng :=
  match cs[i]?, cs[j]? with
  | some dataA0, some dataB0 =>
    let (actionA, rng1) := getAction cfg dataA0 (memGet dataA0.memory dataB0.id) rng
    let (actionB, rng2) := getAction cfg dataB0 (memGet dataB0.memory dataA0.id) rng1
    let payoffA := payoffMatrixA actionA actionB * cfg.payoffScale
    let payoffB := payoffMatrixB actionA actionB * cfg.payoffScale
    let dataA1 := { dataA0 with
      resources := dataA0.resources + payoffA
      score := dataA0.score + payoffA
      interactionCount := dataA0.interactionCount + 1
      cooperationCount :=
        dataA0.cooperationCount + (if actionA = Action.C then 1 else 0)
      lastHarmer :=
        if payoffA < 0 then some (dataB0.x, dataB0.y) else dataA0.lastHarmer
      lastVictim :=
        if payoffB < 0 then some dataB0.id else dataA0.lastVictim }
    let dataB1 := { dataB0 with
      resources := dataB0.resources + payoffB
      score := dataB0.score + payoffB
      interactionCount := dataB0.interactionCount + 1
      cooperationCount :=
        dataB0.cooperationCount + (if actionB = Action.C then 1 else 0)
      lastHarmer :=
        if payoffB < 0 then some (dataA0.x, dataA0.y) else dataB0.lastHarmer
      lastVictim :=
        if payoffA < 0 then some dataA0.id else dataB0.lastVictim }
    let (dataA2, rng3) := updateMemory cfg dataA1 dataB0.id actionB rng2
    let (dataB2, rng4) := updateMemory cfg dataB1 dataA0.id actionA rng3
    let dataA3 :=
      if dataA2.strategy = Strategy.winStayLoseShift then
        { dataA2 with lastAction := some actionA, lastPayoff := some payoffA }
      else dataA2
    let dataB3 :=
      if dataB2.strategy = Strategy.winStayLoseShift then
        { dataB2 with lastAction := some actionB, lastPayoff := some payoffB }
      else dataB2
    let dataA4 :=
      { dataA3 with lastInteractionTime := time, lastPartner := some dataB0.id }
    let dataB4 :=
      { dataB3 with lastInteractionTime := time, lastPartner := some dataA0.id }
    ((cs.set i dataA4).set j dataB4, rng4)
  | _, _ => (cs, rng)

/-- The ordered pair list (i, j) with i < j < n visited by the double loop
of handleInteractions (outer i ascending, inner j from i + 1 ascending). -/
def pairsBelow (n : ℕ) : List (ℕ × ℕ) :=
  (List.range n).flatMap fun i =>
    ((List.range n).filter fun j => i < j).map fun j => (i, j)

/-- One iteration of the pair scan (lines 676-702): skip the pair when
either member is inside its cooldown window, otherwise run the IPD round
when the pair is within interactionDistance. -/
def scanStep (cfg : SimCfg) (time : ℚ) (s : List CreatureData × Rng)
    (p : ℕ × ℕ) : List CreatureData × Rng :=
  match s.1[p.1]?, s.1[p.2]? with
  | some dataA, some dataB =>
    if cooldownBlocked cfg time dataA ∨ cooldownBlocked cfg time dataB then s
    else if distLt dataA.x dataA.y dataB.x dataB.y cfg.interactionDistance then
      handleIPDRound cfg time p.1 p.2 s.1 s.2
    else s
  | _, _ => s

/-- Embeds handleInteractions (lines 675-704): the pair scan over every
i < j in stable ascending order. -/
def handleInteractions (cfg : SimCfg) (time : ℚ) (cs : List CreatureData)
    (rng : Rng) : List CreatureData × Rng :=
  (pairsBelow cs.length).foldl (scanStep cfg time) (cs, rng)

/-- A sequence of pair scans at the listed scan times, in order. -/
def runScans (cfg : SimCfg) (cs : List CreatureData) (rng : Rng) :
    List ℚ → List CreatureData × Rng
  | [] => (cs, rng)
  | t :: rest =>
      let s := handleInteractions cfg t cs rng
      runScans cfg s.1 s.2 rest

/-- interactionCount of the creature at list position k (0 if absent). -/
def countAt (cs : List CreatureData) (k : ℕ) : ℕ :=
  match cs[k]? with
  | some c => c.interactionCount
  | none => 0

/-- Embeds the resource part of updateCreature (lines 489-506): maintenance
drain, overpopulation drain when the population exceeds carryingCapacity,
and the hard cutoff to 0 when it exceeds twice carryingCapacity.
population is this.creatures.length at the time of the update. -/
def updateResources (cfg : SimCfg) (population : ℕ) (dt : ℚ)
    (resources : ℚ) : ℚ :=
  let current := resources - cfg.maintenanceCost * dt
  let current :=
    if cfg.carryingCapacity < (population : ℚ) then
      current - ((population : ℚ) - cfg.carryingCapacity) *
        cfg.overpopulationFactor * dt
    else current
  if cfg.carryingCapacity * 2 < (population : ℚ) then 0 else current

/-- Embeds the data initialization of createCreature (lines 309-421).
Rendering objects are omitted.  jitterX and jitterY stand for the two
Phaser.Math.Between(-30, 30) draws of the offspring branch (taken when a
parent position is supplied); randX and randY stand for the
Phaser.Math.Between(radius, size - radius) draws of the initial-placement
branch. -/
def createCreature (cfg : SimCfg) (width height : ℚ) (strategy : Strategy)
    (id : ℚ) (parentX parentY : Option ℚ) (jitterX jitterY randX randY : ℚ) :
    CreatureData :=
  let x := match parentX with
    | some px => clampQ (px + jitterX) cfg.creatureRadius (width - cfg.creatureRadius)
    | none => randX
  let y := match parentY with
    | some py => clampQ (py + jitterY) cfg.creatureRadius (height - cfg.creatureRadius)
    | none => randY
  { x := x
    y := y
    velocityX := 0
    velocityY := 0
    id := id
    resources := 100
    strategy := strategy
    memory := []
    lastInteractionTime := -cfg.interactionCooldown
    age := 0
    score := 0
    interactionCount := 0
    cooperationCount := 0
    defectionCount := 0
    lastPartner := none
    lastAction := if strategy = Strategy.winStayLoseShift then some Action.C else none
    lastPayoff := if strategy = Strategy.winStayLoseShift then some 3 else none
    lastHarmer := none
    lastVictim := none }

/-- Embeds reproduce (lines 665-673) at the creature-list level: the parent
at position i pays reproductionCost and one offspring created by
createCreature near the parent position is pushed onto the list. -/
def reproduce (cfg : SimCfg) (width height : ℚ) (cs : List CreatureData)
    (i : ℕ) (offspringId jitterX jitterY : ℚ) : List CreatureData :=
  match cs[i]? with
  | some parent =>
      let parent1 :=
        { parent with resources := parent.resources - cfg.reproductionCost }
      let child := createCreature cfg width height parent.strategy offspringId
        (some parent.x) (some parent.y) jitterX jitterY 0 0
      cs.set i parent1 ++ [child]
  | none => cs

/-- A food item: position, the value held by its data manager (none once
the object is destroyed, since destroy tears the data manager down and a
later getData reads undefined), and the active flag. -/
structure FoodItem where
  x : ℚ
  y : ℚ
  value : Option ℚ
  active : Bool
deriving DecidableEq

/-- food.destroy(): the object goes inactive and its stored data is gone.
The position fields stay readable, as on a destroyed Phaser object. -/
def destroyFood (f : FoodItem) : FoodItem := { f with value := none, active := false }

/-- JS `v || d` on numbers: d when v is undefined and also when v is 0
(0 is falsy), used by `(food.getData(value) as number) || this.foodValue`. -/
def jsOrQ (v : Option ℚ) (d : ℚ) : ℚ :=
  match v with
  | some q => if q = 0 then d else q
  | none => d

/-- Embeds the body of the outer forEach of handleFoodConsumption (lines
915-931) for one food item: the inner loop over every creature in order.
There is no break and no active check, so the loop keeps running after the
food is destroyed; a later in-range creature reads the destroyed data
(undefined) and falls back to this.foodValue. -/
def consumeFoodStep (cfg : SimCfg) (f : FoodItem) :
    List CreatureData → FoodItem × List CreatureData
  | [] => (f, [])
  | c :: rest =>
      if distLt c.x c.y f.x f.y (cfg.creatureRadius + 15) then
        let foodValue := jsOrQ f.value cfg.foodValue
        let p := consumeFoodStep cfg (destroyFood f) rest
        (p.1, { c with resources := c.resources + foodValue } :: p.2)
      else
        let p := consumeFoodStep cfg f rest
        (p.1, c :: p.2)

/-- Embeds handleFoodConsumption (lines 912-932).  getChildren returns the
live children array of the food group, and destroying a food splices it
out of that same array while forEach advances its index, so the array
element directly after a consumed food is skipped in this pass.  Output:
the foods left in the group array after the pass, in order, and the
updated creature list. -/
def handleFoodConsumption (cfg : SimCfg) :
    List FoodItem → List CreatureData → List FoodItem × List CreatureData
  | [], cs => ([], cs)
  | f :: rest, cs =>
      let p := consumeFoodStep cfg f cs
      if p.1.active then
        let q := handleFoodConsumption cfg rest p.2
        (p.1 :: q.1, q.2)
      else
        match rest with
        | [] => ([], p.2)
        | g :: rest2 =>
            let q := handleFoodConsumption cfg rest2 p.2
            (g :: q.1, q.2)

/-- Division guarded against a zero denominator: none marks the non-finite
value that an unguarded x / 0 would inject.  The movement theorem shows
that none never arises in updateMovement. -/
def fdiv (a b : ℚ) : Option ℚ := if b = 0 then none else some (a / b)

/-- The repeated normalize-and-scale block of updateMovement: when the
distance is positive, add (dx / distance) * speed on each axis, otherwise
contribute nothing. -/
def normTowards (sqrtFn : ℚ → ℚ) (dx dy speed : ℚ) : Option (ℚ × ℚ) :=
  let distance := sqrtFn (dx * dx + dy * dy)
  if 0 < distance then
    match fdiv dx distance, fdiv dy distance with
    | some ux, some uy => some (ux * speed, uy * speed)
    | _, _ => none
  else some (0, 0)

/-- The nearest-food search of updateMovement (lines 547-562): keep the
food with the strictly smallest Distance.Between, starting from an
infinite best distance (modelled by the empty accumulator). -/
def nearestFood (sqrtFn : ℚ → ℚ) (x y : ℚ) (foods : List (ℚ × ℚ)) :
    Option (ℚ × ℚ) :=
  (foods.foldl (fun acc fd =>
    let d := sqrtFn (distSq x y fd.1 fd.2)
    match acc with
    | none => some (fd, d)
    | some (bf, bd) => if d < bd then some (fd, d) else some (bf, bd)) none).map
    Prod.fst

/-- The food-seeking block of updateMovement (lines 546-573): unit vector
toward the nearest food times speedFood, nothing when the component is
disabled, no food exists, or the distance is 0. -/
def seekContribution (cfg : SimCfg) (sqrtFn : ℚ → ℚ) (x y : ℚ)
    (foods : List (ℚ × ℚ)) : Option (ℚ × ℚ) :=
  if 0 < cfg.speedFood then
    match nearestFood sqrtFn x y foods with
    | some (fx, fy) => normTowards sqrtFn (fx - x) (fy - y) cfg.speedFood
    | none => some (0, 0)
  else some (0, 0)

/-- The flee block of updateMovement (lines 575-588): unit vector away
from lastHarmer times speedFlee, and the harmer memory decays (is cleared)
once the distance from that point exceeds 300.  Returns the velocity
contribution and the updated lastHarmer. -/
def fleeContribution (cfg : SimCfg) (sqrtFn : ℚ → ℚ) (x y : ℚ)
    (lastHarmer : Option (ℚ × ℚ)) : Option ((ℚ × ℚ) × Option (ℚ × ℚ)) :=
  if 0 < cfg.speedFlee then
    match lastHarmer with
    | some (hx, hy) =>
        match normTowards sqrtFn (x - hx) (y - hy) cfg.speedFlee with
        | some v =>
            some (v,
              if 300 < sqrtFn ((x - hx) * (x - hx) + (y - hy) * (y - hy))
              then none else lastHarmer)
        | none => none
    | none => some ((0, 0), lastHarmer)
  else some ((0, 0), lastHarmer)

/-- The chase block of updateMovement (lines 590-599): unit vector toward
the current position of a still-active lastVictim times speedChase. -/
def chaseContribution (cfg : SimCfg) (sqrtFn : ℚ → ℚ) (x y : ℚ)
    (lastVictim : Option ℚ) (victimPos : Option (ℚ × ℚ)) : Option (ℚ × ℚ) :=
  if 0 < cfg.speedChase then
    match lastVictim, victimPos with
    | some _, some (vx2, vy2) =>
        normTowards sqrtFn (vx2 - x) (vy2 - y) cfg.speedChase
    | _, _ => some (0, 0)
  else some (0, 0)

/-- The max-speed limiter of updateMovement (lines 610-618): when the
smoothed speed exceeds 150, renormalize the velocity to length 150. -/
def capVelocity (sqrtFn : ℚ → ℚ) (vX vY : ℚ) : Option (ℚ × ℚ) :=
  let maxSpeed : ℚ := 150
  let speed := sqrtFn (vX * vX + vY * vY)
  if maxSpeed < speed then
    match fdiv vX speed, fdiv vY speed with
    | some ax, some ay => some (ax * maxSpeed, ay * maxSpeed)
    | _, _ => none
  else some (vX, vY)

/-- Embeds updateMovement (lines 526-645).  sqrtFn is the explicit model of
Math.sqrt (and of Distance.Between, which is the sqrt of distSq); wanderX
and wanderY stand for cos respectively sin of the random wander angle;
victimPos is the current position of the lastVictim container when it is
still active, none when it is dead or absent.  All divisions go through
fdiv, so the result is none exactly when an unguarded division by zero
would have produced a non-finite value. -/
def updateMovement (cfg : SimCfg) (sqrtFn : ℚ → ℚ) (width height dt : ℚ)
    (wanderX wanderY : ℚ) (foods : List (ℚ × ℚ)) (victimPos : Option (ℚ × ℚ))
    (c : CreatureData) : Option CreatureData :=
  let wander : ℚ × ℚ :=
    if 0 < cfg.speedRandom
    then (wanderX * cfg.speedRandom, wanderY * cfg.speedRandom) else (0, 0)
  match seekContribution cfg sqrtFn c.x c.y foods,
        fleeContribution cfg sqrtFn c.x c.y c.lastHarmer,
        chaseContribution cfg sqrtFn c.x c.y c.lastVictim victimPos with
  | some sk, some fl, some ch =>
      let vx := wander.1 + sk.1 + fl.1.1 + ch.1
      let vy := wander.2 + sk.2 + fl.1.2 + ch.2
      let pk : ℚ := 95 / 100
      let vX := c.velocityX * pk + vx * (1 - pk)
      let vY := c.velocityY * pk + vy * (1 - pk)
      match capVelocity sqrtFn vX vY with
      | some v =>
          let newX := c.x + v.1 * dt
          let newY := c.y + v.2 * dt
          let bx :=
            if newX < cfg.creatureRadius ∨ width - cfg.creatureRadius < newX
            then (-v.1, clampQ newX cfg.creatureRadius (width - cfg.creatureRadius))
            else (v.1, newX)
          let by2 :=
            if newY < cfg.creatureRadius ∨ height - cfg.creatureRadius < newY
            then (-v.2, clampQ newY cfg.creatureRadius (height - cfg.creatureRadius))
            else (v.2, newY)
          some { c with velocityX := bx.1, velocityY := by2.1,
                        x := bx.2, y := by2.2,
                        lastHarmer := fl.2,
                        lastVictim :=
                          match c.lastVictim, victimPos with
                          | some _, none => none
                          | v2, _ => v2 }
      | none => none
  | _, _, _ => none

/-- Iterated updateMemory against a single opponent: the owner records the
listed observed actions in order. -/
def recordAll (cfg : SimCfg) (opponentId : ℚ) :
    CreatureData → List Action → Rng → CreatureData × Rng
  | data, [], rng => (data, rng)
  | data, a :: rest, rng =>
      let p := updateMemory cfg data opponentId a rng
      recordAll cfg opponentId p.1 rest p.2

/-- The values those updateMemory calls actually store (after the memory
noise draw), in order. -/
def storedList (cfg : SimCfg) : List Action → Rng → List Action
  | [], _ => []
  | a :: rest, rng =>
      let p := rng.next
      (if p.1 < cfg.errorRateMemory then flipCD a else a) ::
        storedList cfg rest p.2

/-- The WSLS round trace of the code: per round the action comes from
getAction (which ignores the opponent history for this strategy, so the
empty history is passed) and the state update mirrors handleIPDRound lines
765-768 with the listed payoff received.  Returns the actions taken, in
order, and the final creature state. -/
def wslsRounds (cfg : SimCfg) (data : CreatureData) (rng : Rng) :
    List ℚ → List Action × CreatureData
  | [] => ([], data)
  | p :: rest =>
      let a := getAction cfg data [] rng
      let data1 :=
        if data.strategy = Strategy.winStayLoseShift then
          { data with lastAction := some a.1, lastPayoff := some p }
        else data
      let t := wslsRounds cfg data1 a.2 rest
      (a.1 :: t.1, t.2)

/-- A draw stream that always yields 1 / 2 (a representative value in
[0, 1) that triggers neither of the zero-rate noise branches of
defaultCfg). -/
def halfRng : Rng := ⟨fun _ => 1 / 2, 0⟩

/-- A concrete creature on an 800 x 600 world with defaultCfg, id idv and
position (px, py), as built by the initial-placement branch of
createCreature. -/
def baseCreature (s : Strategy) (idv px py : ℚ) : CreatureData :=
  createCreature defaultCfg 800 600 s idv none none 0 0 px py

/-- defaultCfg with a nonzero carrying capacity of 10, for economy
instances below the hard-cutoff regime. -/
def capCfg : SimCfg := { defaultCfg with carryingCapacity := 10 }

/-- A grim-trigger creature that has recorded one defection by opponent 7. -/
def grimSeenD : CreatureData :=
  (recordAll defaultCfg 7 (baseCreature Strategy.grimTrigger 0 100 100)
    [Action.D] halfRng).1

/-- grimSeenD after ten further cooperative observations of opponent 7:
the defection has been evicted from the capacity-10 history. -/
def grimAfterTen : CreatureData :=
  (recordAll defaultCfg 7 grimSeenD
    [Action.C, Action.C, Action.C, Action.C, Action.C,
     Action.C, Action.C, Action.C, Action.C, Action.C] halfRng).1

/-- A live food item at the origin carrying the default stored value 10,
as spawnFood creates it. -/
def foodAtOrigin : FoodItem := { x := 0, y := 0, value := some 10, active := true }

/-- A creature sitting exactly on the food at the origin. -/
def eaterA : CreatureData := baseCreature Strategy.alwaysCooperate 0 0 0

/-- A second creature 10 units from the origin, well inside the pickup
range creatureRadius + 15 = 35. -/
def eaterB : CreatureData := baseCreature Strategy.alwaysCooperate 1 10 0

/-- A creature whose last interaction was stamped at time 0, for cooldown
window instances. -/
def recentCreature : CreatureData :=
  { baseCreature Strategy.alwaysDefect 3 50 50 with lastInteractionTime := 0 }

/-! Helper lemmas shared by several claim theorems. -/

theorem memGet_memSet (m : List (ℚ × List Action)) (k : ℚ) (v : List Action) :
    memGet (memSet m k v) k = v := by
  induction m with
  | nil => simp [memSet, memGet]
  | cons p rest ih =>
      by_cases h : p.1 = k
      · simp [memSet, memGet, h]
      · simp [memSet, memGet, h, ih]

theorem updateMemory_snd (cfg : SimCfg) (data : CreatureData) (oid : ℚ)
    (act : Action) (rng : Rng) :
    (updateMemory cfg data oid act rng).2 = ⟨rng.f, rng.i + 1⟩ := rfl

theorem updateMemory_memGet (cfg : SimCfg) (data : CreatureData) (oid : ℚ)
    (act : Action) (rng : Rng) :
    memGet ((updateMemory cfg data oid act rng).1.memory) oid =
      (if 10 < (memGet data.memory oid ++
          [if rng.f rng.i < cfg.errorRateMemory then flipCD act else act]).length
       then (memGet data.memory oid ++
          [if rng.f rng.i < cfg.errorRateMemory then flipCD act else act]).tail
       else memGet data.memory oid ++
          [if rng.f rng.i < cfg.errorRateMemory then flipCD act else act]) := by
  simp only [updateMemory, Rng.next]
  exact memGet_memSet ..

theorem storedList_length (cfg : SimCfg) :
    ∀ (obs : List Action) (rng : Rng), (storedList cfg obs rng).length = obs.length := by
  intro obs
  induction obs with
  | nil => intro rng; rfl
  | cons a rest ih => intro rng; simp [storedList, ih]

theorem pushTrim_drop (h S : List Action) (s0 : Action) (hlen : h.length ≤ 10) :
    ((if 10 < (h ++ [s0]).length then (h ++ [s0]).tail else h ++ [s0]) ++ S).drop
      (((if 10 < (h ++ [s0]).length then (h ++ [s0]).tail else h ++ [s0]) ++ S).length - 10) =
    (h ++ s0 :: S).drop ((h ++ s0 :: S).length - 10) := by
  by_cases hc : 10 < (h ++ [s0]).length
  · rw [if_pos hc]
    have hlen10 : h.length = 10 := by
      simp only [List.length_append, List.length_cons, List.length_nil] at hc
      omega
    cases h with
    | nil => simp at hlen10
    | cons hd tl =>
        have htl : tl.length = 9 := by
          simp only [List.length_cons] at hlen10
          omega
        have e1 : (hd :: tl ++ [s0]).tail ++ S = tl ++ (s0 :: S) := by simp
        rw [e1]
        have e2 : (hd :: tl) ++ s0 :: S = hd :: (tl ++ s0 :: S) := rfl
        rw [e2]
        have l1 : (tl ++ s0 :: S).length - 10 = S.length := by
          simp only [List.length_append, List.length_cons, htl]
          omega
        have l2 : (hd :: (tl ++ s0 :: S)).length - 10 = S.length + 1 := by
          simp only [List.length_append, List.length_cons, htl]
          omega
        rw [l1, l2, List.drop_succ_cons]
  · rw [if_neg hc]
    have e1 : (h ++ [s0]) ++ S = h ++ (s0 :: S) := by simp
    rw [e1]

theorem recordAll_history (cfg : SimCfg) (oid : ℚ) :
    ∀ (obs : List Action) (data : CreatureData) (rng : Rng),
      (memGet data.memory oid).length ≤ 10 →
      memGet ((recordAll cfg oid data obs rng).1.memory) oid =
        (memGet data.memory oid ++ storedList cfg obs rng).drop
          ((memGet data.memory oid ++ storedList cfg obs rng).length - 10) := by
  intro obs
  induction obs with
  | nil =>
      intro data rng hlen
      simp only [recordAll, storedList, List.append_nil]
      rw [Nat.sub_eq_zero_of_le hlen, List.drop_zero]
  | cons a rest ih =>
      intro data rng hlen
      have hmem := updateMemory_memGet cfg data oid a rng
      have hlen1 : (memGet ((updateMemory cfg data oid a rng).1.memory) oid).length ≤ 10 := by
        rw [hmem]
        by_cases hc : 10 < (memGet data.memory oid ++
            [if rng.f rng.i < cfg.errorRateMemory then flipCD a else a]).length
        · rw [if_pos hc]
          simp only [List.length_tail, List.length_append, List.length_cons,
            List.length_nil] at hc ⊢
          omega
        · rw [if_neg hc]
          simp only [List.length_append, List.length_cons, List.length_nil] at hc ⊢
          omega
      have hstep : memGet ((recordAll cfg oid data (a :: rest) rng).1.memory) oid =
          memGet ((recordAll cfg oid (updateMemory cfg data oid a rng).1 rest
            (updateMemory cfg data oid a rng).2).1.memory) oid := rfl
      rw [hstep, ih _ _ hlen1, hmem, updateMemory_snd]
      have hsl : storedList cfg (a :: rest) rng =
          (if rng.f rng.i < cfg.errorRateMemory then flipCD a else a) ::
            storedList cfg rest ⟨rng.f, rng.i + 1⟩ := rfl
      rw [hsl]
      exact pushTrim_drop (memGet data.memory oid)
        (storedList cfg rest ⟨rng.f, rng.i + 1⟩)
        (if rng.f rng.i < cfg.errorRateMemory then flipCD a else a) hlen

/-- Claim C6: the per-opponent memory is a capacity-10 FIFO, most recent
last, oldest evicted first: starting from an empty history for this
opponent, after the listed observations are recorded the stored history is
exactly the suffix of the stored-value sequence past its length minus 10 -
that is, the most recent min(n, 10) stored values - and its length is
min(n, 10) (so after 15 recordings exactly the 10 most recent remain and
the first 5 are evicted). -/
theorem C6_memory_fifo (cfg : SimCfg) (oid : ℚ) (data : CreatureData)
    (obs : List Action) (rng : Rng)
    (h0 : memGet data.memory oid = []) :
    memGet ((recordAll cfg oid data obs rng).1.memory) oid =
      (storedList cfg obs rng).drop (obs.length - 10) ∧
    (memGet ((recordAll cfg oid data obs rng).1.memory) oid).length =
      min obs.length 10 := by
  have h := recordAll_history cfg oid obs data rng (by rw [h0]; simp)
  rw [h0] at h
  simp only [List.nil_append] at h
  rw [storedList_length] at h
  refine ⟨h, ?_⟩
  rw [h]
  rw [List.length_drop, storedList_length]
  omega

/-- Claim C6 witness: a tit-for-tat creature with empty memory records 15
observations against opponent 7; the final history is the 10 most recent
stored values and has length min 15 10 = 10. -/
theorem C6_memory_fifo_witness :
    memGet (baseCreature Strategy.titForTat 1 100 100).memory 7 = [] ∧
    (memGet ((recordAll defaultCfg 7 (baseCreature Strategy.titForTat 1 100 100)
        [Action.C, Action.C, Action.C, Action.C, Action.C,
         Action.D, Action.D, Action.D, Action.D, Action.D,
         Action.C, Action.C, Action.C, Action.C, Action.C] halfRng).1.memory) 7 =
      (storedList defaultCfg
        [Action.C, Action.C, Action.C, Action.C, Action.C,
         Action.D, Action.D, Action.D, Action.D, Action.D,
         Action.C, Action.C, Action.C, Action.C, Action.C] halfRng).drop (15 - 10) ∧
     (memGet ((recordAll defaultCfg 7 (baseCreature Strategy.titForTat 1 100 100)
        [Action.C, Action.C, Action.C, Action.C, Action.C,
         Action.D, Action.D, Action.D, Action.D, Action.D,
         Action.C, Action.C, Action.C, Action.C, Action.C] halfRng).1.memory) 7).length =
      min 15 10) :=
  ⟨rfl, C6_memory_fifo defaultCfg 7 (baseCreature Strategy.titForTat 1 100 100)
    [Action.C, Action.C, Action.C, Action.C, Action.C,
     Action.D, Action.D, Action.D, Action.D, Action.D,
     Action.C, Action.C, Action.C, Action.C, Action.C] halfRng rfl⟩

/-- Claim C8 counterexample: with defaultCfg (carryingCapacity 0), one
agent, resources 100 and dt = 1, the economy step forces resources to 0
through the hard cutoff (population exceeds twice the carrying capacity),
while the claimed formula maintenance-plus-density gives 85. -/
theorem C8_counterexample :
    updateResources defaultCfg 1 1 100 = 0 ∧
    (100 : ℚ) - defaultCfg.maintenanceCost * 1 -
      ((1 : ℚ) - defaultCfg.carryingCapacity) *
        defaultCfg.overpopulationFactor * 1 = 85 ∧
    (0 : ℚ) ≠ 85 := by
  refine ⟨?_, ?_, ?_⟩ <;> norm_num [updateResources, defaultCfg]

/-- Claim C8 (amended): for an agent with no interaction and no food, when
the population does not exceed twice the carrying capacity, the economy
step yields resources minus maintenanceCost times dt, minus the density
term (population minus carryingCapacity) times overpopulationFactor times
dt when the population exceeds the carrying capacity; when the population
exceeds twice the carrying capacity the code instead forces resources to
0, which the original claim omitted. -/
theorem C8_economy (cfg : SimCfg) (population : ℕ) (dt resources : ℚ)
    (h : (population : ℚ) ≤ cfg.carryingCapacity * 2) :
    updateResources cfg population dt resources =
      resources - cfg.maintenanceCost * dt -
        (if cfg.carryingCapacity < (population : ℚ) then
          ((population : ℚ) - cfg.carryingCapacity) *
            cfg.overpopulationFactor * dt
         else 0) := by
  unfold updateResources
  rw [if_neg (not_lt.mpr h)]
  split <;> ring

/-- Claim C8 witness: capacity 10, population 15, dt 1, resources 100:
the economy step gives 100 - 5 - 50 = 45 by the amended formula. -/
theorem C8_economy_witness :
    ((15 : ℕ) : ℚ) ≤ capCfg.carryingCapacity * 2 ∧
    updateResources capCfg 15 1 100 =
      100 - capCfg.maintenanceCost * 1 -
        (if capCfg.carryingCapacity < ((15 : ℕ) : ℚ) then
          (((15 : ℕ) : ℚ) - capCfg.carryingCapacity) *
            capCfg.overpopulationFactor * 1
         else 0) :=
  ⟨by norm_num [capCfg, defaultCfg],
   C8_economy capCfg 15 1 100 (by norm_num [capCfg, defaultCfg])⟩

/-- Claim C10: every creature is created with lastInteractionTime equal to
minus interactionCooldown, so at any scan time T at least 0 the cooldown
test of the pair scan does not block it: it is eligible immediately. -/
theorem C10_fresh_cooldown (cfg : SimCfg) (width height : ℚ) (s : Strategy)
    (idv : ℚ) (px py : Option ℚ) (jx jy rx ry : ℚ) (T : ℚ) (hT : 0 ≤ T) :
    (createCreature cfg width height s idv px py jx jy rx ry).lastInteractionTime =
      -cfg.interactionCooldown ∧
    ¬ cooldownBlocked cfg T (createCreature cfg width height s idv px py jx jy rx ry) := by
  refine ⟨rfl, ?_⟩
  unfold cooldownBlocked
  have hl : (createCreature cfg width height s idv px py jx jy rx ry).lastInteractionTime =
      -cfg.interactionCooldown := rfl
  rw [hl]
  intro hcontra
  linarith

/-- Claim C10 witness: a fresh default creature is not blocked at scan
time 0. -/
theorem C10_fresh_cooldown_witness :
    (0 : ℚ) ≤ 0 ∧
    ((createCreature defaultCfg 800 600 Strategy.titForTat 1 none none 0 0 100 100).lastInteractionTime =
        -defaultCfg.interactionCooldown ∧
     ¬ cooldownBlocked defaultCfg 0
        (createCreature defaultCfg 800 600 Strategy.titForTat 1 none none 0 0 100 100)) :=
  ⟨le_refl 0, C10_fresh_cooldown defaultCfg 800 600 Strategy.titForTat 1 none none
    0 0 100 100 0 (le_refl 0)⟩

/-- Claim C1 counterexample: a grim-trigger agent whose stored history for
opponent 7 contained a Defect (and who at that point answers Defect) takes
action Cooperate against that same opponent after ten cooperative
observations evict the Defect from the capacity-10 history - so it is not
the case that every action after the trigger is Defect. -/
theorem C1_counterexample :
    Action.D ∈ memGet grimSeenD.memory 7 ∧
    (getAction defaultCfg grimSeenD (memGet grimSeenD.memory 7) halfRng).1 =
      Action.D ∧
    (getAction defaultCfg grimAfterTen (memGet grimAfterTen.memory 7) halfRng).1 =
      Action.C := by
  refine ⟨?_, ?_, ?_⟩ <;>
    norm_num [grimSeenD, grimAfterTen, recordAll, updateMemory, memGet, memSet,
      baseCreature, createCreature, defaultCfg, halfRng, Rng.next, getAction,
      flipCD]

/-- Claim C1 (amended): noise-free, a grim-trigger agent defects exactly
while the current stored history for the opponent contains a Defect; the
trigger is encoded entirely in the capacity-10 FIFO history with no
separate flag, so it is not irreversible: once every Defect has been
evicted by later observations the agent cooperates again. -/
theorem C1_grim_state (cfg : SimCfg) (data : CreatureData) (moves : List Action)
    (rng : Rng) (hs : data.strategy = Strategy.grimTrigger)
    (hn : cfg.errorRateInteraction = 0) (hr : 0 ≤ rng.f rng.i) :
    (getAction cfg data moves rng).1 =
      (if moves.contains Action.D then Action.D else Action.C) := by
  unfold getAction
  rw [hs, hn]
  simp only [Rng.next]
  rw [if_neg (not_lt.mpr hr)]

/-- Claim C1 witness: the amended statement at a concrete history that
contains a Defect. -/
theorem C1_grim_state_witness :
    grimSeenD.strategy = Strategy.grimTrigger ∧
    defaultCfg.errorRateInteraction = 0 ∧
    (0 : ℚ) ≤ halfRng.f halfRng.i ∧
    (getAction defaultCfg grimSeenD [Action.C, Action.D] halfRng).1 =
      (if ([Action.C, Action.D] : List Action).contains Action.D
       then Action.D else Action.C) :=
  ⟨rfl, rfl, by norm_num [halfRng],
   C1_grim_state defaultCfg grimSeenD [Action.C, Action.D] halfRng rfl rfl
     (by norm_num [halfRng])⟩

/-- Claim C4: win-stay-lose-shift.  First part: noise-free, a WSLS agent
repeats lastAction when lastPayoff is positive and flips it otherwise,
whatever the per-opponent history (the state is per agent, shared across
opponents).  Second part: createCreature initializes the WSLS state to
action C, payoff 3.  Third part: under received payoffs 3, -1, 3, -2 from
the initial state, the actions taken are C, C, D, D, and the next action
would be C. -/
theorem C4_wsls (cfg : SimCfg) (data : CreatureData) (moves : List Action)
    (rng : Rng) (hs : data.strategy = Strategy.winStayLoseShift)
    (hn : cfg.errorRateInteraction = 0) (hr : 0 ≤ rng.f rng.i) :
    ((getAction cfg data moves rng).1 =
      if 0 < data.lastPayoff.getD 3 then data.lastAction.getD Action.C
      else flipCD (data.lastAction.getD Action.C)) ∧
    (∀ (width height idv jx jy rx ry : ℚ) (px py : Option ℚ),
      (createCreature cfg width height Strategy.winStayLoseShift idv px py
        jx jy rx ry).lastAction = some Action.C ∧
      (createCreature cfg width height Strategy.winStayLoseShift idv px py
        jx jy rx ry).lastPayoff = some 3) ∧
    ((wslsRounds defaultCfg (baseCreature Strategy.winStayLoseShift 0 100 100)
        halfRng [3, -1, 3, -2]).1 =
      [Action.C, Action.C, Action.D, Action.D] ∧
     (getAction defaultCfg
        (wslsRounds defaultCfg (baseCreature Strategy.winStayLoseShift 0 100 100)
          halfRng [3, -1, 3, -2]).2 [] halfRng).1 = Action.C) := by
  refine ⟨?_, ?_, ?_, ?_⟩
  · unfold getAction
    rw [hs, hn]
    simp only [Rng.next]
    rw [if_neg (not_lt.mpr hr)]
    by_cases hp : 0 < data.lastPayoff.getD 3
    · rw [if_pos hp, if_pos hp]
    · rw [if_neg hp, if_neg hp]
      cases data.lastAction.getD Action.C <;> rfl
  · intro width height idv jx jy rx ry px py
    exact ⟨rfl, rfl⟩
  · norm_num [wslsRounds, getAction, baseCreature, createCreature, defaultCfg,
      halfRng, Rng.next, flipCD]
  · norm_num [wslsRounds, getAction, baseCreature, createCreature, defaultCfg,
      halfRng, Rng.next, flipCD]

/-- Claim C4 witness: the first part at a fresh default WSLS creature. -/
theorem C4_wsls_witness :
    (baseCreature Strategy.winStayLoseShift 0 100 100).strategy =
      Strategy.winStayLoseShift ∧
    defaultCfg.errorRateInteraction = 0 ∧
    (0 : ℚ) ≤ halfRng.f halfRng.i ∧
    (getAction defaultCfg (baseCreature Strategy.winStayLoseShift 0 100 100)
        [] halfRng).1 =
      (if 0 < (baseCreature Strategy.winStayLoseShift 0 100 100).lastPayoff.getD 3
       then (baseCreature Strategy.winStayLoseShift 0 100 100).lastAction.getD Action.C
       else flipCD ((baseCreature Strategy.winStayLoseShift 0 100 100).lastAction.getD
         Action.C)) :=
  ⟨rfl, rfl, by norm_num [halfRng],
   (C4_wsls defaultCfg (baseCreature Strategy.winStayLoseShift 0 100 100) []
     halfRng rfl rfl (by norm_num [halfRng])).1⟩

theorem consumeFoodStep_spec (cfg : SimCfg) :
    ∀ (cs : List CreatureData) (f : FoodItem),
      jsOrQ f.value cfg.foodValue = cfg.foodValue →
      (consumeFoodStep cfg f cs).2 =
        cs.map (fun c =>
          if distLt c.x c.y f.x f.y (cfg.creatureRadius + 15)
          then { c with resources := c.resources + cfg.foodValue } else c) ∧
      (consumeFoodStep cfg f cs).1.active =
        (f.active && !(cs.any fun c =>
          distLt c.x c.y f.x f.y (cfg.creatureRadius + 15))) := by
  intro cs
  induction cs with
  | nil =>
      intro f hf
      exact ⟨rfl, by simp [consumeFoodStep]⟩
  | cons c rest ih =>
      intro f hf
      have hdestroy : jsOrQ (destroyFood f).value cfg.foodValue = cfg.foodValue := rfl
      by_cases hd : distLt c.x c.y f.x f.y (cfg.creatureRadius + 15) = true
      · have h1 := (ih (destroyFood f) hdestroy).1
        have h2 := (ih (destroyFood f) hdestroy).2
        constructor
        · simp only [consumeFoodStep, hd, if_true, List.map_cons]
          rw [hf, h1]
          simp [destroyFood]
        · simp only [consumeFoodStep, hd, if_true]
          rw [h2]
          simp [destroyFood, hd]
      · have h1 := (ih f hf).1
        have h2 := (ih f hf).2
        have hd' : distLt c.x c.y f.x f.y (cfg.creatureRadius + 15) = false := by
          simpa using hd
        constructor
        · simp [consumeFoodStep, hd', h1]
        · simp [consumeFoodStep, hd', h2]

/-- Claim C2 counterexample: one food item at the origin worth 10 and two
creatures both within pickup range (distances 0 and 10, range 35).  In the
food-consumption pass the second creature also gains 10 from the same food
item, so it is not the case that exactly the first agent found gains the
value and no other agent gains from that item. -/
theorem C2_counterexample :
    (handleFoodConsumption defaultCfg [foodAtOrigin] [eaterA, eaterB]).2.map
      CreatureData.resources = [110, 110] ∧
    (handleFoodConsumption defaultCfg [foodAtOrigin] [eaterA, eaterB]).1 = [] := by
  refine ⟨?_, ?_⟩ <;>
    norm_num [handleFoodConsumption, consumeFoodStep, foodAtOrigin, eaterA,
      eaterB, baseCreature, createCreature, defaultCfg, distLt, distSq, jsOrQ,
      destroyFood]

/-- Claim C2 (amended): in the per-food pass of handleFoodConsumption every
creature within creatureRadius + 15 of the food gains the foodValue, not
only the first one found: the inner loop has no break and no active check,
so after the first in-range creature destroys the item, each later
in-range creature reads the destroyed data and falls back to the same
configured foodValue.  The item ends destroyed exactly when some creature
is in range. -/
theorem C2_food_all_in_range (cfg : SimCfg) (f : FoodItem)
    (cs : List CreatureData) (hv : f.value = some cfg.foodValue) :
    (consumeFoodStep cfg f cs).2 =
      cs.map (fun c =>
        if distLt c.x c.y f.x f.y (cfg.creatureRadius + 15)
        then { c with resources := c.resources + cfg.foodValue } else c) ∧
    (consumeFoodStep cfg f cs).1.active =
      (f.active && !(cs.any fun c =>
        distLt c.x c.y f.x f.y (cfg.creatureRadius + 15))) := by
  apply consumeFoodStep_spec
  rw [hv]
  show (if cfg.foodValue = 0 then cfg.foodValue else cfg.foodValue) = cfg.foodValue
  split <;> rfl

/-- Claim C2 witness: the amended statement at the concrete two-creature
instance of the counterexample. -/
theorem C2_food_all_in_range_witness :
    foodAtOrigin.value = some defaultCfg.foodValue ∧
    ((consumeFoodStep defaultCfg foodAtOrigin [eaterA, eaterB]).2 =
      [eaterA, eaterB].map (fun c =>
        if distLt c.x c.y foodAtOrigin.x foodAtOrigin.y
            (defaultCfg.creatureRadius + 15)
        then { c with resources := c.resources + defaultCfg.foodValue } else c) ∧
    (consumeFoodStep defaultCfg foodAtOrigin [eaterA, eaterB]).1.active =
      (foodAtOrigin.active && !([eaterA, eaterB].any fun c =>
        distLt c.x c.y foodAtOrigin.x foodAtOrigin.y
          (defaultCfg.creatureRadius + 15)))) :=
  ⟨rfl, C2_food_all_in_range defaultCfg foodAtOrigin [eaterA, eaterB] rfl⟩

/-- Claim C7: reproduction.  A parent at position i with resources equal
to reproductionThreshold + 1 ends the reproduction step with
reproductionThreshold + 1 - reproductionCost; exactly one creature is
appended: it has the fixed baseline resources 100, an empty memory, the
strategy copied from the parent, and a position equal to the parent
position plus the jitter draws, clamped to the world bounds; every other
creature is untouched. -/
theorem C7_reproduction (cfg : SimCfg) (width height : ℚ)
    (cs : List CreatureData) (i : ℕ) (parent : CreatureData)
    (offspringId jx jy : ℚ) (hi : cs[i]? = some parent)
    (hres : parent.resources = cfg.reproductionThreshold + 1) :
    (reproduce cfg width height cs i offspringId jx jy).length = cs.length + 1 ∧
    ((reproduce cfg width height cs i offspringId jx jy)[i]?).map
        CreatureData.resources =
      some (cfg.reproductionThreshold + 1 - cfg.reproductionCost) ∧
    (∀ k, k ≠ i → k < cs.length →
      (reproduce cfg width height cs i offspringId jx jy)[k]? = cs[k]?) ∧
    ∃ child,
      (reproduce cfg width height cs i offspringId jx jy)[cs.length]? =
        some child ∧
      child.resources = 100 ∧
      child.memory = [] ∧
      child.strategy = parent.strategy ∧
      child.x = clampQ (parent.x + jx) cfg.creatureRadius
        (width - cfg.creatureRadius) ∧
      child.y = clampQ (parent.y + jy) cfg.creatureRadius
        (height - cfg.creatureRadius) := by
  have hilen : i < cs.length := (List.getElem?_eq_some.mp hi).1
  have hrepro : reproduce cfg width height cs i offspringId jx jy =
      cs.set i { parent with resources := parent.resources - cfg.reproductionCost }
        ++ [createCreature cfg width height parent.strategy offspringId
            (some parent.x) (some parent.y) jx jy 0 0] := by
    unfold reproduce
    rw [hi]
  rw [hrepro]
  refine ⟨?_, ?_, ?_, ?_⟩
  · simp
  · rw [List.getElem?_append, if_pos (by simpa using hilen),
      List.getElem?_set_eq_of_lt _ (by simpa using hilen)]
    simp [hres]
  · intro k hk hklen
    rw [List.getElem?_append, if_pos (by simpa using hklen),
      List.getElem?_set_ne (fun h => hk h.symm)]
  · refine ⟨createCreature cfg width height parent.strategy offspringId
      (some parent.x) (some parent.y) jx jy 0 0, ?_, rfl, rfl, rfl, rfl, rfl⟩
    rw [List.getElem?_append_right (by simp)]
    simp

/-- Claim C7 witness: a parent with resources 201 = 200 + 1 under
defaultCfg reproduces. -/
theorem C7_reproduction_witness :
    ([{ baseCreature Strategy.titForTat 0 100 100 with resources := 201 }] :
        List CreatureData)[0]? =
      some { baseCreature Strategy.titForTat 0 100 100 with resources := 201 } ∧
    ({ baseCreature Strategy.titForTat 0 100 100 with
        resources := 201 } : CreatureData).resources =
      defaultCfg.reproductionThreshold + 1 ∧
    (reproduce defaultCfg 800 600
      [{ baseCreature Strategy.titForTat 0 100 100 with resources := 201 }]
      0 5 7 (-9)).length = 1 + 1 :=
  ⟨rfl, by norm_num [defaultCfg],
   (C7_reproduction defaultCfg 800 600
     [{ baseCreature Strategy.titForTat 0 100 100 with resources := 201 }] 0
     { baseCreature Strategy.titForTat 0 100 100 with resources := 201 }
     5 7 (-9) rfl (by norm_num [defaultCfg])).1⟩

theorem fdiv_isSome_of_ne (a b : ℚ) (h : b ≠ 0) : fdiv a b = some (a / b) := by
  unfold fdiv
  rw [if_neg h]

theorem normTowards_ne_none (sqrtFn : ℚ → ℚ) (dx dy speed : ℚ) :
    normTowards sqrtFn dx dy speed ≠ none := by
  unfold normTowards
  by_cases h : 0 < sqrtFn (dx * dx + dy * dy)
  · rw [if_pos h, fdiv_isSome_of_ne _ _ h.ne', fdiv_isSome_of_ne _ _ h.ne']
    simp
  · rw [if_neg h]
    simp

theorem seekContribution_ne_none (cfg : SimCfg) (sqrtFn : ℚ → ℚ) (x y : ℚ)
    (foods : List (ℚ × ℚ)) :
    seekContribution cfg sqrtFn x y foods ≠ none := by
  unfold seekContribution
  split
  · match nearestFood sqrtFn x y foods with
    | some (fx, fy) =>
        show normTowards sqrtFn (fx - x) (fy - y) cfg.speedFood ≠ none
        exact normTowards_ne_none sqrtFn (fx - x) (fy - y) cfg.speedFood
    | none => simp
  · simp

theorem fleeContribution_ne_none (cfg : SimCfg) (sqrtFn : ℚ → ℚ) (x y : ℚ)
    (lastHarmer : Option (ℚ × ℚ)) :
    fleeContribution cfg sqrtFn x y lastHarmer ≠ none := by
  unfold fleeContribution
  split
  · match lastHarmer with
    | some (hx, hy) =>
        have h := normTowards_ne_none sqrtFn (x - hx) (y - hy) cfg.speedFlee
        cases hn : normTowards sqrtFn (x - hx) (y - hy) cfg.speedFlee with
        | some v => simp [hn]
        | none => exact absurd hn h
    | none => simp
  · simp

theorem chaseContribution_ne_none (cfg : SimCfg) (sqrtFn : ℚ → ℚ) (x y : ℚ)
    (lastVictim : Option ℚ) (victimPos : Option (ℚ × ℚ)) :
    chaseContribution cfg sqrtFn x y lastVictim victimPos ≠ none := by
  unfold chaseContribution
  split
  · match lastVictim, victimPos with
    | some v2, some (vx2, vy2) =>
        show normTowards sqrtFn (vx2 - x) (vy2 - y) cfg.speedChase ≠ none
        exact normTowards_ne_none sqrtFn (vx2 - x) (vy2 - y) cfg.speedChase
    | some v2, none => simp
    | none, some p => simp
    | none, none => simp
  · simp

theorem capVelocity_ne_none (sqrtFn : ℚ → ℚ) (vX vY : ℚ) :
    capVelocity sqrtFn vX vY ≠ none := by
  unfold capVelocity
  by_cases h : (150 : ℚ) < sqrtFn (vX * vX + vY * vY)
  · have hz : sqrtFn (vX * vX + vY * vY) ≠ 0 := by
      intro h0
      rw [h0] at h
      norm_num at h
    rw [if_pos h, fdiv_isSome_of_ne _ _ hz, fdiv_isSome_of_ne _ _ hz]
    simp
  · rw [if_neg h]
    simp

/-- Claim C9: every direction-vector normalization in the movement model
(seek-food, flee, chase, and the max-speed limiter) is guarded by a
positive-distance test before dividing, so updateMovement never produces
the none that marks a non-finite value entering velocity or position
state: it always returns some updated creature. -/
theorem C9_movement_guarded (cfg : SimCfg) (sqrtFn : ℚ → ℚ)
    (width height dt wanderX wanderY : ℚ) (foods : List (ℚ × ℚ))
    (victimPos : Option (ℚ × ℚ)) (c : CreatureData) :
    (updateMovement cfg sqrtFn width height dt wanderX wanderY foods
      victimPos c).isSome = true := by
  unfold updateMovement
  obtain ⟨sk, hsk⟩ := Option.ne_none_iff_exists'.mp
    (seekContribution_ne_none cfg sqrtFn c.x c.y foods)
  obtain ⟨fl, hfl⟩ := Option.ne_none_iff_exists'.mp
    (fleeContribution_ne_none cfg sqrtFn c.x c.y c.lastHarmer)
  obtain ⟨ch, hch⟩ := Option.ne_none_iff_exists'.mp
    (chaseContribution_ne_none cfg sqrtFn c.x c.y c.lastVictim victimPos)
  rw [hsk, hfl, hch]
  simp only []
  split
  · rfl
  · next heq =>
      exact absurd heq (capVelocity_ne_none _ _ _)

theorem handleIPDRound_get_ne (cfg : SimCfg) (time : ℚ) (i j : ℕ)
    (cs : List CreatureData) (rng : Rng) (k : ℕ) (hki : k ≠ i) (hkj : k ≠ j) :
    ((handleIPDRound cfg time i j cs rng).1)[k]? = cs[k]? := by
  unfold handleIPDRound
  cases h1 : cs[i]? with
  | none => rfl
  | some dataA =>
    cases h2 : cs[j]? with
    | none => rfl
    | some dataB =>
      show (((cs.set i _).set j _ : List CreatureData))[k]? = cs[k]?
      rw [List.getElem?_set_ne (Ne.symm hkj), List.getElem?_set_ne (Ne.symm hki)]

theorem handleIPDRound_spec (cfg : SimCfg) (time : ℚ) (i j : ℕ)
    (cs : List CreatureData) (rng : Rng) (a b : CreatureData)
    (ha : cs[i]? = some a) (hb : cs[j]? = some b) :
    ∃ a2 b2, (handleIPDRound cfg time i j cs rng).1 = (cs.set i a2).set j b2 ∧
      a2.interactionCount = a.interactionCount + 1 ∧
      a2.lastInteractionTime = time ∧
      b2.interactionCount = b.interactionCount + 1 ∧
      b2.lastInteractionTime = time := by
  unfold handleIPDRound
  rw [ha, hb]
  refine ⟨_, _, rfl, ?_, ?_, ?_, ?_⟩
  · simp only [updateMemory]
    split <;> rfl
  · rfl
  · simp only [updateMemory]
    split <;> rfl
  · rfl

theorem scanStep_eq_some (cfg : SimCfg) (time : ℚ) (s : List CreatureData × Rng)
    (p : ℕ × ℕ) (dataA dataB : CreatureData)
    (h1 : s.1[p.1]? = some dataA) (h2 : s.1[p.2]? = some dataB) :
    scanStep cfg time s p =
      if cooldownBlocked cfg time dataA ∨ cooldownBlocked cfg time dataB then s
      else if distLt dataA.x dataA.y dataB.x dataB.y cfg.interactionDistance then
        handleIPDRound cfg time p.1 p.2 s.1 s.2
      else s := by
  unfold scanStep
  rw [h1, h2]

theorem scanStep_cases (cfg : SimCfg) (time : ℚ) (s : List CreatureData × Rng)
    (p : ℕ × ℕ) (k : ℕ) :
    ((scanStep cfg time s p).1)[k]? = s.1[k]? ∨
    ∃ c c2, s.1[k]? = some c ∧ ((scanStep cfg time s p).1)[k]? = some c2 ∧
      ¬ cooldownBlocked cfg time c ∧
      c2.interactionCount = c.interactionCount + 1 ∧
      c2.lastInteractionTime = time := by
  cases h1 : s.1[p.1]? with
  | none =>
      left
      unfold scanStep
      rw [h1]
  | some dataA =>
    cases h2 : s.1[p.2]? with
    | none =>
        left
        unfold scanStep
        rw [h1, h2]
    | some dataB =>
      rw [scanStep_eq_some cfg time s p dataA dataB h1 h2]
      by_cases hblock : cooldownBlocked cfg time dataA ∨ cooldownBlocked cfg time dataB
      · rw [if_pos hblock]; left; rfl
      · rw [if_neg hblock]
        by_cases hdist :
            distLt dataA.x dataA.y dataB.x dataB.y cfg.interactionDistance = true
        · rw [if_pos hdist]
          obtain ⟨a2, b2, heq, hca, hta, hcb, htb⟩ :=
            handleIPDRound_spec cfg time p.1 p.2 s.1 s.2 dataA dataB h1 h2
          by_cases hk2 : k = p.2
          · subst hk2
            right
            refine ⟨dataB, b2, h2, ?_, fun hc => hblock (Or.inr hc), hcb, htb⟩
            rw [heq, List.getElem?_set_eq_of_lt _
              (by simpa using (List.getElem?_eq_some.mp h2).1)]
          · by_cases hk1 : k = p.1
            · subst hk1
              right
              refine ⟨dataA, a2, h1, ?_, fun hc => hblock (Or.inl hc), hca, hta⟩
              rw [heq, List.getElem?_set_ne (fun h => hk2 h.symm),
                List.getElem?_set_eq_of_lt _
                  (by simpa using (List.getElem?_eq_some.mp h1).1)]
            · left
              exact handleIPDRound_get_ne cfg time p.1 p.2 s.1 s.2 k hk1 hk2
        · rw [if_neg hdist]; left; rfl

theorem scanStep_frozen (cfg : SimCfg) (time : ℚ) (s : List CreatureData × Rng)
    (p : ℕ × ℕ) (k : ℕ) (c : CreatureData) (hc : s.1[k]? = some c)
    (hb : cooldownBlocked cfg time c) :
    ((scanStep cfg time s p).1)[k]? = some c := by
  rcases scanStep_cases cfg time s p k with h | ⟨c3, c4, hc3, hc4, hnb, _, _⟩
  · rw [h, hc]
  · rw [hc] at hc3
    injection hc3 with h3
    subst h3
    exact absurd hb hnb

theorem scanFold_frozen (cfg : SimCfg) (time : ℚ) :
    ∀ (ps : List (ℕ × ℕ)) (s : List CreatureData × Rng) (k : ℕ)
      (c : CreatureData), s.1[k]? = some c → cooldownBlocked cfg time c →
      ((ps.foldl (scanStep cfg time) s).1)[k]? = some c := by
  intro ps
  induction ps with
  | nil => intro s k c hc hb; exact hc
  | cons p rest ih =>
      intro s k c hc hb
      exact ih (scanStep cfg time s p) k c
        (scanStep_frozen cfg time s p k c hc hb) hb

theorem scanFold_dichotomy (cfg : SimCfg) (time : ℚ)
    (hcd : 0 < cfg.interactionCooldown) :
    ∀ (ps : List (ℕ × ℕ)) (s : List CreatureData × Rng) (k : ℕ),
      ((ps.foldl (scanStep cfg time) s).1)[k]? = s.1[k]? ∨
      ∃ c c2, s.1[k]? = some c ∧
        ((ps.foldl (scanStep cfg time) s).1)[k]? = some c2 ∧
        c2.interactionCount = c.interactionCount + 1 ∧
        c2.lastInteractionTime = time := by
  intro ps
  induction ps with
  | nil => intro s k; left; rfl
  | cons p rest ih =>
      intro s k
      rw [List.foldl_cons]
      rcases scanStep_cases cfg time s p k with h |
        ⟨c, c2, hc, hc2, hnb, hcount, htime⟩
      · rcases ih (scanStep cfg time s p) k with h2 |
          ⟨c, c2, hc, hc2, hcount, htime⟩
        · left; rw [h2, h]
        · right
          exact ⟨c, c2, by rw [← h]; exact hc, hc2, hcount, htime⟩
      · have hb : cooldownBlocked cfg time c2 := by
          unfold cooldownBlocked
          rw [htime]
          simpa using hcd
        right
        exact ⟨c, c2, hc,
          scanFold_frozen cfg time rest (scanStep cfg time s p) k c2 hc2 hb,
          hcount, htime⟩

/-- Claim C3 counterexample: there is no reachable state at all - no
configuration with positive interactionCooldown, time, creature list,
draw stream and agent index - in which an agent takes part in two or more
interactions within one pair scan: each interaction stamps the agent with
lastInteractionTime = time, and the cooldown test then skips every later
pair containing it in the same scan. -/
theorem C3_counterexample :
    ¬ ∃ (cfg : SimCfg) (time : ℚ) (cs : List CreatureData) (rng : Rng) (k : ℕ),
        0 < cfg.interactionCooldown ∧
        countAt cs k + 2 ≤ countAt ((handleInteractions cfg time cs rng).1) k := by
  rintro ⟨cfg, time, cs, rng, k, hcd, hcount⟩
  unfold handleInteractions at hcount
  rcases scanFold_dichotomy cfg time hcd (pairsBelow cs.length) (cs, rng) k with
    h | ⟨c, c2, hc, hc2, hcnt, _⟩
  · rw [show ((cs, rng) : List CreatureData × Rng).1 = cs from rfl] at h
    unfold countAt at hcount
    rw [h] at hcount
    omega
  · rw [show ((cs, rng) : List CreatureData × Rng).1 = cs from rfl] at hc
    simp only [countAt, hc, hc2] at hcount
    omega

/-- Claim C3 (amended): an agent takes part in at most one interaction per
pair scan whenever interactionCooldown is positive: the bound comes from
the cooldown stamping (each interaction sets lastInteractionTime to the
scan time, so the per-agent cooldown test blocks all its later pairs that
tick), not from any separate per-partner limit. -/
theorem C3_at_most_one (cfg : SimCfg) (time : ℚ) (cs : List CreatureData)
    (rng : Rng) (k : ℕ) (hcd : 0 < cfg.interactionCooldown) :
    countAt ((handleInteractions cfg time cs rng).1) k ≤ countAt cs k + 1 := by
  unfold handleInteractions
  rcases scanFold_dichotomy cfg time hcd (pairsBelow cs.length) (cs, rng) k with
    h | ⟨c, c2, hc, hc2, hcnt, _⟩
  · rw [show ((cs, rng) : List CreatureData × Rng).1 = cs from rfl] at h
    unfold countAt
    rw [h]
    omega
  · rw [show ((cs, rng) : List CreatureData × Rng).1 = cs from rfl] at hc
    simp only [countAt, hc, hc2, hcnt]
    omega

/-- Claim C3 witness: the amended bound at a concrete two-creature state
under defaultCfg (cooldown 50). -/
theorem C3_at_most_one_witness :
    (0 : ℚ) < defaultCfg.interactionCooldown ∧
    countAt ((handleInteractions defaultCfg 100 [eaterA, eaterB] halfRng).1) 0 ≤
      countAt [eaterA, eaterB] 0 + 1 :=
  ⟨by norm_num [defaultCfg],
   C3_at_most_one defaultCfg 100 [eaterA, eaterB] halfRng 0
     (by norm_num [defaultCfg])⟩

/-- Claim C5: cooldown.  First part: an interaction at time T stamps both
participants with lastInteractionTime = T.  Second part: a creature whose
lastInteractionTime satisfies t - lastInteractionTime < interactionCooldown
at every listed scan time is left completely unchanged by all those scans:
it interacts with no one (the pair scan skips every pair containing it)
until the cooldown has elapsed. -/
theorem C5_cooldown (cfg : SimCfg) :
    (∀ (time : ℚ) (i j : ℕ) (cs : List CreatureData) (rng : Rng)
       (a b : CreatureData), cs[i]? = some a → cs[j]? = some b →
       (∃ ci, ((handleIPDRound cfg time i j cs rng).1)[i]? = some ci ∧
          ci.lastInteractionTime = time) ∧
       (∃ cj, ((handleIPDRound cfg time i j cs rng).1)[j]? = some cj ∧
          cj.lastInteractionTime = time)) ∧
    (∀ (times : List ℚ) (cs : List CreatureData) (rng : Rng) (k : ℕ)
       (c : CreatureData), cs[k]? = some c →
       (∀ t ∈ times, t - c.lastInteractionTime < cfg.interactionCooldown) →
       ((runScans cfg cs rng times).1)[k]? = some c) := by
  constructor
  · intro time i j cs rng a b ha hb
    obtain ⟨a2, b2, heq, hca, hta, hcb, htb⟩ :=
      handleIPDRound_spec cfg time i j cs rng a b ha hb
    have hjlen : j < ((cs.set i a2) : List CreatureData).length := by
      simpa using (List.getElem?_eq_some.mp hb).1
    constructor
    · by_cases hij : i = j
      · subst hij
        exact ⟨b2, by rw [heq, List.getElem?_set_eq_of_lt _ hjlen], htb⟩
      · refine ⟨a2, ?_, hta⟩
        rw [heq, List.getElem?_set_ne (fun h => hij h.symm),
          List.getElem?_set_eq_of_lt _
            (by simpa using (List.getElem?_eq_some.mp ha).1)]
    · exact ⟨b2, by rw [heq, List.getElem?_set_eq_of_lt _ hjlen], htb⟩
  · intro times
    induction times with
    | nil => intro cs rng k c hc _; exact hc
    | cons t rest ih =>
        intro cs rng k c hc hwin
        have hb : cooldownBlocked cfg t c := hwin t (by simp)
        have hstep : ((handleInteractions cfg t cs rng).1)[k]? = some c :=
          scanFold_frozen cfg t (pairsBelow cs.length) (cs, rng) k c hc hb
        have hrest : ∀ u ∈ rest,
            u - c.lastInteractionTime < cfg.interactionCooldown :=
          fun u hu => hwin u (by simp [hu])
        exact ih (handleInteractions cfg t cs rng).1
          (handleInteractions cfg t cs rng).2 k c hstep hrest

/-- Claim C5 witness: a creature stamped at time 0 under defaultCfg
(cooldown 50) is untouched by pair scans at times 10 and 20. -/
theorem C5_cooldown_witness :
    (([recentCreature] : List CreatureData)[0]? = some recentCreature) ∧
    (∀ t ∈ ([10, 20] : List ℚ),
      t - recentCreature.lastInteractionTime < defaultCfg.interactionCooldown) ∧
    ((runScans defaultCfg [recentCreature] halfRng [10, 20]).1)[0]? =
      some recentCreature := by
  have hm : ∀ t ∈ ([10, 20] : List ℚ),
      t - recentCreature.lastInteractionTime < defaultCfg.interactionCooldown := by
    intro t ht
    have h0 : recentCreature.lastInteractionTime = 0 := rfl
    rw [h0]
    simp only [List.mem_cons, List.not_mem_nil, or_false] at ht
    rcases ht with rfl | rfl <;> norm_num [defaultCfg]
  exact ⟨rfl, hm,
    (C5_cooldown defaultCfg).2 [10, 20] [recentCreature] halfRng 0
      recentCreature rfl hm⟩

end IPD
